import Mathlib

/-!
# Verification of the charged-jet–hadron correlation task

Shallow embedding of `PWGJE/Tasks/chargedJetHadron.cxx` (struct
`ChargedJetHadron`).  Floating-point (`float`/`double`) quantities are
modelled as real numbers; configuration values are gathered in a `Config`
record; external selection oracles (event selection bits, track selection)
are modelled as boolean verdict fields carried by the data rows, as the
task only ever consumes their boolean outcome.
-/

namespace ChargedJetHadronTask

open Real

noncomputable section

/-- Configuration surface of the task (the `Configurable<...>` members that
the embedded functions consume).  Occupancy bounds are integers as in the
source (`Configurable<int>`). -/
structure Config where
  vertexZCut : ℝ
  centralityMin : ℝ
  centralityMax : ℝ
  leadingjetptMin : ℝ
  subleadingjetptMin : ℝ
  trackEtaMin : ℝ
  trackEtaMax : ℝ
  jetEtaMin : ℝ
  jetEtaMax : ℝ
  jetAreaFractionMin : ℝ
  leadingConstituentPtMin : ℝ
  leadingConstituentPtMax : ℝ
  trackOccupancyInTimeRangeMin : ℤ
  trackOccupancyInTimeRangeMax : ℤ
  checkLeadConstituentPtForMcpJets : Bool
  cfgCentEstimator : ℕ
  acceptSplitCollisions : ℕ

/-- A jet row: kinematics, area, resolution parameter (`r`, radius ×100,
an integer in the source) and the transverse momenta of its constituents
(all that `isAcceptedJet` reads from the constituent table). -/
structure Jet where
  pt : ℝ
  eta : ℝ
  phi : ℝ
  area : ℝ
  r : ℤ
  constituentsPt : List ℝ

/-- A track (hadron) row.  `sel` is the verdict of the external
`jetderiveddatautilities::selectTrack` oracle for this row (an opaque,
configuration-driven predicate per the spec's interface boundary). -/
structure Track where
  pt : ℝ
  eta : ℝ
  phi : ℝ
  sel : Bool

/-- A collision (event) row.  `selOk` is the verdict of the external
`jetderiveddatautilities::selectCollision` oracle for this row. -/
structure Collision where
  posZ : ℝ
  centFT0C : ℝ
  centFT0A : ℝ
  centFT0M : ℝ
  trackOccupancyInTimeRange : ℤ
  rho : ℝ
  selOk : Bool

/-- An MC (particle-level) collision row, as consumed by the MCP process
entry points. -/
structure McCollision where
  posZ : ℝ
  rho : ℝ
  weight : ℝ

/-- `jetderiveddatautilities::selectCollision`, modelled as the boolean
verdict carried by the row (external oracle, see `Collision.selOk`). -/
def selectCollision (c : Collision) : Prop := c.selOk = true

/-- `jetderiveddatautilities::selectTrack`, modelled as the boolean verdict
carried by the row (external oracle, see `Track.sel`). -/
def selectTrack (t : Track) : Prop := t.sel = true

/-- `getCentrality` (source lines 441-445): pick the centrality estimator
selected by `cfgCentEstimator` (0: FT0C, 1: FT0A, otherwise FT0M). -/
def getCentrality (cfg : Config) (c : Collision) : ℝ :=
  if cfg.cfgCentEstimator = 0 then c.centFT0C
  else if cfg.cfgCentEstimator = 1 then c.centFT0A
  else c.centFT0M

/-- `isGoodCollision` (source lines 457-480): event-selection oracle, then
occupancy window, then centrality window, then vertex-z cut. -/
def isGoodCollision (cfg : Config) (c : Collision) : Prop :=
  selectCollision c ∧
  ¬(c.trackOccupancyInTimeRange < cfg.trackOccupancyInTimeRangeMin ∨
      c.trackOccupancyInTimeRange > cfg.trackOccupancyInTimeRangeMax) ∧
  ¬(getCentrality cfg c < cfg.centralityMin ∨ getCentrality cfg c > cfg.centralityMax) ∧
  ¬(|c.posZ| > cfg.vertexZCut)

/-- Modelled from the spec: `RecoDecay::constrainAngle(angle, min)`
(from `Common/Core/RecoDecay.h`, not part of the provided sources) "maps
any real Δφ into the canonical range `[min, min+2π)` by adding/subtracting
2π as needed (constrain-to-range operation)".  The unique such value is
`x - 2π·⌊(x - min)/(2π)⌋`. -/
def constrainAngle (x min : ℝ) : ℝ :=
  x - 2 * π * (Int.floor ((x - min) / (2 * π)) : ℝ)

/-- The Δφ wrap used before every histogram fill of a jet–hadron Δφ:
`RecoDecay::constrainAngle(dphi, -PIHalf)`, i.e. wrapping into
`[-π/2, 3π/2)`. -/
def wrapDeltaPhi (x : ℝ) : ℝ := constrainAngle x (-(π / 2))

/-- Modelled from the spec: `jetfindingutilities::isInEtaAcceptance`
(from `PWGJE/Core/JetFindingUtilities.h`, not part of the provided
sources): "reject if outside eta acceptance (`jetEtaMin/Max` combined with
track eta bounds via a shared acceptance rule)" — explicit jet-eta window
when `jetEtaMin` is set, otherwise the fiducial window derived from the
track eta bounds shrunk by the jet radius. -/
def isInEtaAcceptance (cfg : Config) (jet : Jet) : Prop :=
  if cfg.jetEtaMin < -98 then
    cfg.trackEtaMin + (jet.r : ℝ) / 100 ≤ jet.eta ∧
      jet.eta ≤ cfg.trackEtaMax - (jet.r : ℝ) / 100
  else
    cfg.jetEtaMin ≤ jet.eta ∧ jet.eta ≤ cfg.jetEtaMax

/-- `isAcceptedJet` (source lines 482-520): optional area-fraction cut,
then (when enabled) the leading-constituent-pT window scan.  The loop's
final `isMinLeadingConstituent` is true iff the min-check is disabled or
some constituent has `pt ≥ leadingConstituentPtMin`; its final
`isMaxLeadingConstituent` is true iff the max-check is disabled or no
constituent has `pt > leadingConstituentPtMax`. -/
def isAcceptedJet (cfg : Config) (mcLevelIsParticleLevel : Bool) (jet : Jet) : Prop :=
  (if cfg.jetAreaFractionMin > -98 then
      ¬(jet.area < cfg.jetAreaFractionMin * π * ((jet.r : ℝ) / 100) * ((jet.r : ℝ) / 100))
    else True) ∧
  (if ((cfg.leadingConstituentPtMin > -98 ∨ cfg.leadingConstituentPtMax < 9998) ∧
        ¬(mcLevelIsParticleLevel = true ∧ cfg.checkLeadConstituentPtForMcpJets = false)) then
      ((¬cfg.leadingConstituentPtMin > -98 ∨
          ∃ p ∈ jet.constituentsPt, p ≥ cfg.leadingConstituentPtMin) ∧
        (cfg.leadingConstituentPtMax < 9998 →
          ∀ p ∈ jet.constituentsPt, ¬p > cfg.leadingConstituentPtMax))
    else True)

/-- Corrected transverse momentum, `ptCorr = jet.pt() - jet.area() * rho`
(source line 809 and analogues). -/
def ptCorrOf (rho : ℝ) (j : Jet) : ℝ := j.pt - j.area * rho

/-- A jet is accepted for the correlation analyses when it is inside the
eta acceptance and passes the jet-acceptance predicate (data /
detector-level call sites pass `mcLevelIsParticleLevel = false`). -/
def jetAccepted (cfg : Config) (j : Jet) : Prop :=
  isInEtaAcceptance cfg j ∧ isAcceptedJet cfg false j

/-- The sign flip of the eta-ordering canonicalization (source line 838):
`(etaJet1Raw > etaJet2Raw) ? 1.0 : -1.0`. -/
def signFlip (eta1 eta2 : ℝ) : ℝ := if eta1 > eta2 then 1 else -1

instance (c t e : Prop) [dc : Decidable c] [dt : Decidable t] [de : Decidable e] :
    Decidable (if c then t else e) :=
  match dc with
  | isTrue hc => by rwa [if_pos hc]
  | isFalse hc => by rwa [if_neg hc]

instance (c : Collision) : Decidable (selectCollision c) := by
  unfold selectCollision; infer_instance

instance (t : Track) : Decidable (selectTrack t) := by
  unfold selectTrack; infer_instance

instance (cfg : Config) (c : Collision) : Decidable (isGoodCollision cfg c) := by
  unfold isGoodCollision; infer_instance

instance (cfg : Config) (j : Jet) : Decidable (isInEtaAcceptance cfg j) := by
  unfold isInEtaAcceptance; infer_instance

instance (cfg : Config) (b : Bool) (j : Jet) : Decidable (isAcceptedJet cfg b j) := by
  unfold isAcceptedJet; infer_instance

instance (cfg : Config) (j : Jet) : Decidable (jetAccepted cfg j) := by
  unfold jetAccepted; infer_instance

/-! ### LeadingJetSelector (source lines 793-823) -/

/-- The running state of the streaming top-2 selection: the
`std::optional` leading/subleading jets and their corrected pT, which
start at the `-1.0` sentinel (source lines 794-797). -/
structure Top2State where
  leadingJet : Option Jet
  subleadingJet : Option Jet
  ptLeadingCorr : ℝ
  ptSubleadingCorr : ℝ

/-- Initial selector state (source lines 794-797). -/
def top2Init : Top2State := ⟨none, none, -1, -1⟩

/-- One comparison update of the streaming top-2 selection (source lines
811-819). -/
def top2Update (rho : ℝ) (s : Top2State) (j : Jet) : Top2State :=
  if ptCorrOf rho j > s.ptLeadingCorr then
    ⟨some j, s.leadingJet, ptCorrOf rho j, s.ptLeadingCorr⟩
  else if ptCorrOf rho j > s.ptSubleadingCorr then
    ⟨s.leadingJet, some j, s.ptLeadingCorr, ptCorrOf rho j⟩
  else s

/-- One loop iteration of the selector: skip jets outside the eta
acceptance or failing the jet-acceptance predicate (source lines 801-807),
otherwise update the running pair. -/
def top2Step (cfg : Config) (rho : ℝ) (s : Top2State) (j : Jet) : Top2State :=
  if jetAccepted cfg j then top2Update rho s j else s

/-- The streaming leading/subleading jet selection: a single `foldl` over
the jet collection (source lines 800-820). -/
def leadingJetSelector (cfg : Config) (rho : ℝ) (jets : List Jet) : Top2State :=
  jets.foldl (top2Step cfg rho) top2Init

/-- The jets passing acceptance (eta acceptance and the jet-acceptance
predicate). -/
def acceptedJets (cfg : Config) (jets : List Jet) : List Jet :=
  jets.filter (fun j => decide (jetAccepted cfg j))

/-- Specification-side definition (refinement target, following the
spec's words): the jets that can actually enter the pair, i.e. accepted
jets; the `-1` condition keeps only jets whose corrected pT beats the
source's initial `-1.0` sentinel. -/
def selectableJets (cfg : Config) (rho : ℝ) (jets : List Jet) : List Jet :=
  jets.filter (fun j => decide (jetAccepted cfg j ∧ ptCorrOf rho j > -1))

/-- Specification-side definition (refinement target, following the
spec's words): stable insertion into a descending-by-key list — the new
element is placed before the first strictly smaller key, i.e. after all
ties. -/
def insertDescBy (key : Jet → ℝ) (j : Jet) : List Jet → List Jet
  | [] => [j]
  | a :: l => if key j > key a then j :: a :: l else a :: insertDescBy key j l

/-- Specification-side definition (refinement target, following the
spec's words): stable sort by key, descending, built by inserting the
input elements left to right. -/
def sortDescBy (key : Jet → ℝ) (l : List Jet) : List Jet :=
  l.foldl (fun s j => insertDescBy key j s) []

/-- Specification-side definition (refinement target, following the
spec's words): "take the first two" of a (sorted) list, packaged in the
same record as the streaming state, with `-1` for absent slots. -/
def top2OfList (rho : ℝ) : List Jet → Top2State
  | [] => ⟨none, none, -1, -1⟩
  | [a] => ⟨some a, none, ptCorrOf rho a, -1⟩
  | a :: b :: _ => ⟨some a, some b, ptCorrOf rho a, ptCorrOf rho b⟩

/-! ### The metric sink: histogram names and fill calls -/

/-- The histogram names touched by the embedded correlation paths, one
constructor per name, spelled as the string literals in the source. -/
inductive HistName where
  | h_centrality
  | h_inclusivejet_corrpt
  | h_dijet_dphi
  | h_dijet_pair_counts
  | h_leadjet_pt
  | h_subleadjet_pt
  | h_leadjet_corrpt
  | h_subleadjet_corrpt
  | h_dijet_pair_counts_cut
  | h_leadjet_eta
  | h_subleadjet_eta
  | h_leadjet_phi
  | h_subleadjet_phi
  | h2_dijet_detanoflip_dphi
  | h2_dijet_deta_dphi
  | h2_dijet_Asymmetry
  | h3_dijet_deta_pt
  | h_jeth_detatot
  | h_jeth_deta
  | h_jeth_dphi
  | h2_jeth_detatot_dphi
  | h2_jeth_deta_dphi
  | thn_ljeth_correlations
  | h2_jeth_physicalcutsup_deta_dphi
  | h2_jeth_physicalcutsmd_deta_dphi
  | h2_jeth_physicalcutsdw_deta_dphi
  | h2_jeth_physicalcutsHup_deta_dphi
  | h2_jeth_physicalcutsHdw_deta_dphi
  | h_mix_event_stats
  | h_mixdijet_dphi
  | h_mixleadjet_corrpt
  | h_mixsubleadjet_corrpt
  | h_mixdijet_pair_counts_cut
  | h_mixleadjet_eta
  | h_mixsubleadjet_eta
  | h2_mixdijet_detanoflip_dphi
  | h2_mixdijet_deta_dphi
  | h2_mixdijet_Asymmetry
  | h3_mixdijet_deta_pt
  | h_mixjeth_detatot
  | h_mixjeth_deta
  | h_mixjeth_dphi
  | h2_mixjeth_detatot_dphi
  | h2_mixjeth_deta_dphi
  | thn_mixjethadron
  | thn_mixljeth_correlations
  | h2_mixjeth_physicalcutsHup_deta_dphi
  | h2_mixjeth_physicalcutsHdw_deta_dphi
  | h_collisions_mult
  deriving DecidableEq

/-- One call to the metric sink, `registry.fill(HIST(name), v₁, …, vₙ)`:
the histogram name and the full argument list (values in call order, the
event weight last whenever the source passes one). -/
structure Fill where
  name : HistName
  values : List ℝ

/-- Recognizes the same-event per-hadron correlation tuple
(`thn_ljeth_correlations`). -/
def isThnLjethFill (f : Fill) : Bool :=
  match f.name with
  | .thn_ljeth_correlations => true
  | _ => false

/-- The per-hadron correlation tuples among a list of emissions of the
same-event leading-pair path. -/
def seHadronTuples (fills : List Fill) : List Fill := fills.filter isThnLjethFill

/-- Recognizes the mixed-event per-hadron correlation tuple (the fill at
source line 1001, emitted under the name `thn_mixjethadron`). -/
def isThnMixFill (f : Fill) : Bool :=
  match f.name with
  | .thn_mixjethadron => true
  | _ => false

/-- The per-hadron correlation tuples among a list of emissions of the
mixed-event leading-pair path. -/
def mixHadronTuples (fills : List Fill) : List Fill := fills.filter isThnMixFill

/-! ### Same-event leading-jet–hadron path (source lines 784-889) -/

/-- The per-track fills of the gated block of
`fillLeadingJetHadronHistograms` (source lines 860-887): skip tracks
failing the track-selection oracle; otherwise emit the Δη/Δφ histograms,
the full correlation tuple, and — for tracks below the 2 GeV cut — the
conditional physical-cut buckets. -/
def seTrackFills (ptL ptS flip etaJet1Raw etaJet2Raw deltaEtaJets leadPhi w : ℝ)
    (t : Track) : List Fill :=
  if ¬selectTrack t then []
  else
    let detatot := t.eta - etaJet1Raw
    let deta := flip * (t.eta - etaJet1Raw)
    let dphi := constrainAngle (t.phi - leadPhi) (-(π / 2))
    [⟨.h_jeth_detatot, [detatot, w]⟩,
     ⟨.h_jeth_deta, [deta, w]⟩,
     ⟨.h_jeth_dphi, [dphi, w]⟩,
     ⟨.h2_jeth_detatot_dphi, [detatot, dphi, w]⟩,
     ⟨.h2_jeth_deta_dphi, [deta, dphi, w]⟩,
     ⟨.thn_ljeth_correlations, [ptL, ptS, t.pt, detatot, deltaEtaJets, deta, dphi, w]⟩] ++
    (if t.pt < 2 then
      (if |deltaEtaJets| ≥ 1 then
        [⟨.h2_jeth_physicalcutsup_deta_dphi, [deta, dphi, w]⟩] else []) ++
      (if |deltaEtaJets| ≥ 1 / 2 ∧ |deltaEtaJets| < 1 then
        [⟨.h2_jeth_physicalcutsmd_deta_dphi, [deta, dphi, w]⟩] else []) ++
      (if |deltaEtaJets| < 1 / 2 then
        [⟨.h2_jeth_physicalcutsdw_deta_dphi, [deta, dphi, w]⟩] else []) ++
      (if etaJet1Raw > etaJet2Raw ∧ |deltaEtaJets| ≥ 1 then
        [⟨.h2_jeth_physicalcutsHup_deta_dphi, [detatot, dphi, w]⟩] else []) ++
      (if etaJet1Raw > etaJet2Raw ∧ |deltaEtaJets| < 1 / 2 then
        [⟨.h2_jeth_physicalcutsHdw_deta_dphi, [detatot, dphi, w]⟩] else [])
    else [])

/-- The per-pair summary fills emitted unconditionally once a
leading/subleading pair passed both back-to-back gates (the `h_dijet_dphi`
fill between the two gates, source line 828, followed by the pair count
and the raw/corrected pT fills, source lines 843-847). -/
def sePairSummaryFills (lead sub : Jet) (ptL ptS w : ℝ) : List Fill :=
  [⟨.h_dijet_dphi, [lead.phi - sub.phi, w]⟩,
   ⟨.h_dijet_pair_counts, [1]⟩,
   ⟨.h_leadjet_pt, [lead.pt, w]⟩,
   ⟨.h_subleadjet_pt, [sub.pt, w]⟩,
   ⟨.h_leadjet_corrpt, [ptL, w]⟩,
   ⟨.h_subleadjet_corrpt, [ptS, w]⟩]

/-- The gated block of the same-event path (source lines 849-888): the
pair-cut fills and the per-track loop, entered only when both corrected
pT thresholds are exceeded. -/
def seGatedFills (cfg : Config) (lead sub : Jet) (ptL ptS : ℝ)
    (tracks : List Track) (w : ℝ) : List Fill :=
  let etaJet1Raw := lead.eta
  let etaJet2Raw := sub.eta
  let deltaPhiJets := constrainAngle (lead.phi - sub.phi) 0
  let deltaEtaJetsNoflip := etaJet1Raw - etaJet2Raw
  let flip := signFlip etaJet1Raw etaJet2Raw
  let deltaEtaJets := flip * etaJet1Raw - flip * etaJet2Raw
  if ptL > cfg.leadingjetptMin ∧ ptS > cfg.subleadingjetptMin then
    [⟨.h_dijet_pair_counts_cut, [2]⟩,
     ⟨.h_leadjet_eta, [etaJet1Raw, w]⟩,
     ⟨.h_subleadjet_eta, [etaJet2Raw, w]⟩,
     ⟨.h_leadjet_phi, [lead.phi, w]⟩,
     ⟨.h_subleadjet_phi, [sub.phi, w]⟩,
     ⟨.h2_dijet_detanoflip_dphi, [deltaEtaJetsNoflip, deltaPhiJets, w]⟩,
     ⟨.h2_dijet_deta_dphi, [deltaEtaJets, deltaPhiJets, w]⟩,
     ⟨.h2_dijet_Asymmetry, [ptS, ptS / ptL, w]⟩,
     ⟨.h3_dijet_deta_pt, [deltaEtaJets, ptL, ptS, w]⟩] ++
    (tracks.map (seTrackFills ptL ptS flip etaJet1Raw etaJet2Raw deltaEtaJets lead.phi w)).flatten
  else []

/-- The leading-pair stage of `fillLeadingJetHadronHistograms` (source
lines 824-888), entered once a (leading, subleading) pair exists: raw
back-to-back gate (source lines 825-827), the `h_dijet_dphi` fill, the
wrapped gate (source lines 829-832), then the unconditional summary and
the threshold-gated block. -/
def leadingPairFillsSE (cfg : Config) (lead sub : Jet) (ptL ptS : ℝ)
    (tracks : List Track) (w : ℝ) : List Fill :=
  if |lead.phi - sub.phi| < π / 2 then []
  else if |constrainAngle (lead.phi - sub.phi) 0| < π / 2 then
    [⟨.h_dijet_dphi, [lead.phi - sub.phi, w]⟩]
  else
    sePairSummaryFills lead sub ptL ptS w ++ seGatedFills cfg lead sub ptL ptS tracks w

/-- `fillLeadingJetHadronHistograms` (source lines 784-889): the
centrality fill, the per-accepted-jet inclusive corrected-pT fills of the
selector loop, then — when the selector produced a complete pair — the
leading-pair stage. -/
def fillLeadingJetHadron (cfg : Config) (coll : Collision) (jets : List Jet)
    (tracks : List Track) (w : ℝ) : List Fill :=
  ⟨.h_centrality, [getCentrality cfg coll]⟩ ::
  ((acceptedJets cfg jets).map fun j => ⟨.h_inclusivejet_corrpt, [ptCorrOf coll.rho j, w]⟩) ++
  (match leadingJetSelector cfg coll.rho jets with
   | ⟨some lead, some sub, ptL, ptS⟩ => leadingPairFillsSE cfg lead sub ptL ptS tracks w
   | _ => [])

/-- The `thn_ljeth_correlations` tuple emitted for one selected hadron in
the same-event leading-pair path (source line 874):
`(ptLeadingCorr, ptSubleadingCorr, trackPt, detatot, deltaEtaJets, deta, dphi, weight)`
with `deta = flip·(trackEta − etaJet1Raw)`. -/
def seThnFill (lead sub : Jet) (ptL ptS w : ℝ) (t : Track) : Fill :=
  ⟨.thn_ljeth_correlations,
   [ptL, ptS, t.pt, t.eta - lead.eta,
    signFlip lead.eta sub.eta * lead.eta - signFlip lead.eta sub.eta * sub.eta,
    signFlip lead.eta sub.eta * (t.eta - lead.eta),
    constrainAngle (t.phi - lead.phi) (-(π / 2)), w]⟩

/-- The `thn_mixjethadron` tuple emitted for one selected hadron in the
mixed-event leading-pair path (source line 1001):
`(ptLeadingCorr, ptSubleadingCorr, trackPt, detatot, deltaEtaJets, deta, dphi, poolBin, weight)`
with `deta = flip·(trackEta − flip·etaJet1Raw)` (the source uses the
flipped `etajet1` here, unlike the same-event path). -/
def mixThnFill (lead sub : Jet) (ptL ptS : ℝ) (poolBin : ℕ) (w : ℝ) (t : Track) : Fill :=
  ⟨.thn_mixjethadron,
   [ptL, ptS, t.pt, t.eta - lead.eta,
    signFlip lead.eta sub.eta * lead.eta - signFlip lead.eta sub.eta * sub.eta,
    signFlip lead.eta sub.eta * (t.eta - signFlip lead.eta sub.eta * lead.eta),
    constrainAngle (t.phi - lead.phi) (-(π / 2)), (poolBin : ℝ), w]⟩

/-! ### Mixed-event leading-jet–hadron path (source lines 891-1016) -/

/-- One pairing yielded by the framework pair generator
(`Pair<..., BinningType>`, an external collaborator): the current event
with its jets, a cached event with its hadron collection, and the pool
bin the external binning policy computed for the cached event (source
line 910). -/
structure Pairing where
  c1 : Collision
  jets1 : List Jet
  c2 : Collision
  tracks2 : List Track
  poolBin : ℕ

/-- The per-track fills of the gated block of
`fillMixLeadingJetHadronHistograms` (source lines 984-1008).  Note the
source computes `deta = flip * (track.eta() - etajet1)` here, where
`etajet1 = flip * etaJet1Raw` is the *flipped* leading-jet eta (source
lines 964 and 992). -/
def mixTrackFills (ptL ptS flip etaJet1Raw etajet1 etaJet2Raw deltaEtaJets leadPhi : ℝ)
    (poolBin : ℕ) (w : ℝ) (t : Track) : List Fill :=
  ⟨.h_mix_event_stats, [4]⟩ ::
  (if ¬selectTrack t then []
   else
    let detatot := t.eta - etaJet1Raw
    let deta := flip * (t.eta - etajet1)
    let dphi := constrainAngle (t.phi - leadPhi) (-(π / 2))
    [⟨.h_mix_event_stats, [5]⟩,
     ⟨.h_mixjeth_detatot, [detatot, w]⟩,
     ⟨.h_mixjeth_deta, [deta, w]⟩,
     ⟨.h_mixjeth_dphi, [dphi, w]⟩,
     ⟨.h2_mixjeth_detatot_dphi, [detatot, dphi, w]⟩,
     ⟨.h2_mixjeth_deta_dphi, [deta, dphi, w]⟩,
     ⟨.thn_mixjethadron,
      [ptL, ptS, t.pt, detatot, deltaEtaJets, deta, dphi, (poolBin : ℝ), w]⟩] ++
    (if t.pt < 2 then
      (if etaJet1Raw > etaJet2Raw ∧ |deltaEtaJets| ≥ 1 then
        [⟨.h2_mixjeth_physicalcutsHup_deta_dphi, [detatot, dphi, w]⟩] else []) ++
      (if etaJet1Raw > etaJet2Raw ∧ |deltaEtaJets| < 1 / 2 then
        [⟨.h2_mixjeth_physicalcutsHdw_deta_dphi, [detatot, dphi, w]⟩] else [])
    else []))

/-- The outcome of processing one pairing: its emissions, whether the
source executed `return` (aborting the whole invocation), and the
contributions to the running counters `totaldijets`, `totaldijetscut`,
`totalPairs`, `passedPairs`. -/
structure MixPairOut where
  fills : List Fill
  aborted : Bool
  dijets : ℕ
  dijetsCut : ℕ
  nPairs : ℕ
  nPassed : ℕ

/-- The leading-pair stage of one mixed-event pairing (source lines
948-1009): raw back-to-back gate, `h_mixdijet_dphi` fill, wrapped gate
(each failure executing `return`, i.e. aborting), then summary fills and
the threshold-gated per-track block. -/
def mixLeadingPairStage (cfg : Config) (lead sub : Jet) (ptL ptS : ℝ)
    (tracks2 : List Track) (poolBin : ℕ) (w : ℝ) : MixPairOut :=
  if |lead.phi - sub.phi| < π / 2 then ⟨[], true, 0, 0, 0, 0⟩
  else if |constrainAngle (lead.phi - sub.phi) 0| < π / 2 then
    ⟨[⟨.h_mixdijet_dphi, [lead.phi - sub.phi, w]⟩], true, 0, 0, 0, 0⟩
  else
    let deltaPhiJets := constrainAngle (lead.phi - sub.phi) 0
    let etaJet1Raw := lead.eta
    let etaJet2Raw := sub.eta
    let flip := signFlip etaJet1Raw etaJet2Raw
    let etajet1 := flip * etaJet1Raw
    let etajet2 := flip * etaJet2Raw
    let deltaEtaJetsNoflip := etaJet1Raw - etaJet2Raw
    let deltaEtaJets := etajet1 - etajet2
    let head : List Fill :=
      [⟨.h_mixdijet_dphi, [lead.phi - sub.phi, w]⟩,
       ⟨.h_mix_event_stats, [2]⟩,
       ⟨.h_mixleadjet_corrpt, [ptL, w]⟩,
       ⟨.h_mixsubleadjet_corrpt, [ptS, w]⟩]
    if ptL > cfg.leadingjetptMin ∧ ptS > cfg.subleadingjetptMin then
      ⟨head ++
        [⟨.h_mix_event_stats, [3]⟩,
         ⟨.h_mixdijet_pair_counts_cut, [2]⟩,
         ⟨.h_mixleadjet_eta, [etaJet1Raw, w]⟩,
         ⟨.h_mixsubleadjet_eta, [etaJet2Raw, w]⟩,
         ⟨.h2_mixdijet_detanoflip_dphi, [deltaEtaJetsNoflip, deltaPhiJets, w]⟩,
         ⟨.h2_mixdijet_deta_dphi, [deltaEtaJets, deltaPhiJets, w]⟩,
         ⟨.h2_mixdijet_Asymmetry, [ptS, ptS / ptL, w]⟩,
         ⟨.h3_mixdijet_deta_pt, [deltaEtaJets, ptL, ptS, w]⟩] ++
        (tracks2.map
          (mixTrackFills ptL ptS flip etaJet1Raw etajet1 etaJet2Raw deltaEtaJets
            lead.phi poolBin w)).flatten,
       false, 1, 1, tracks2.length,
       (tracks2.filter fun t => decide (selectTrack t)).length⟩
    else ⟨head, false, 1, 0, 0, 0⟩

/-- One iteration of the pairing loop of
`fillMixLeadingJetHadronHistograms` (source lines 907-1009): the
`h_mix_event_stats` entry fill, then the good-collision checks on both
partners (each failure executing `return`), then the streaming selector
over the current event's jets (`return` when no complete pair), then the
leading-pair stage. -/
def mixPairingStep (cfg : Config) (w : ℝ) (p : Pairing) : MixPairOut :=
  let f0 : List Fill := [⟨.h_mix_event_stats, [1]⟩]
  if ¬isGoodCollision cfg p.c1 then ⟨f0, true, 0, 0, 0, 0⟩
  else if ¬isGoodCollision cfg p.c2 then ⟨f0, true, 0, 0, 0, 0⟩
  else
    match leadingJetSelector cfg p.c1.rho p.jets1 with
    | ⟨some lead, some sub, ptL, ptS⟩ =>
      let o := mixLeadingPairStage cfg lead sub ptL ptS p.tracks2 p.poolBin w
      ⟨f0 ++ o.fills, o.aborted, o.dijets, o.dijetsCut, o.nPairs, o.nPassed⟩
    | _ => ⟨f0, true, 0, 0, 0, 0⟩

/-- The running counters of `fillMixLeadingJetHadronHistograms` (source
lines 898-902). -/
structure MixCounters where
  totalmix : ℕ
  totaldijets : ℕ
  totaldijetscut : ℕ
  totalPairs : ℕ
  passedPairs : ℕ

/-- The summary fills after the pairing loop (source lines 1011-1015) —
executed only when no pairing triggered `return`. -/
def mixFinalStats (cnt : MixCounters) : List Fill :=
  [⟨.h_mix_event_stats, [6, (cnt.totalmix : ℝ)]⟩,
   ⟨.h_mix_event_stats, [7, (cnt.totaldijets : ℝ)]⟩,
   ⟨.h_mix_event_stats, [8, (cnt.totaldijetscut : ℝ)]⟩,
   ⟨.h_mix_event_stats, [9, (cnt.totalPairs : ℝ)]⟩,
   ⟨.h_mix_event_stats, [10, (cnt.passedPairs : ℝ)]⟩]

/-- The pairing loop of `fillMixLeadingJetHadronHistograms`: pairings are
processed in order; an aborted pairing ends the whole invocation (the
source `return` statements), skipping the remaining pairings and the
final counter fills. -/
def runMixGo (cfg : Config) (w : ℝ) : List Pairing → List Fill → MixCounters → List Fill
  | [], acc, cnt => acc ++ mixFinalStats cnt
  | p :: rest, acc, cnt =>
    let o := mixPairingStep cfg w p
    if o.aborted then acc ++ o.fills
    else
      runMixGo cfg w rest (acc ++ o.fills)
        ⟨cnt.totalmix + 1, cnt.totaldijets + o.dijets, cnt.totaldijetscut + o.dijetsCut,
          cnt.totalPairs + o.nPairs, cnt.passedPairs + o.nPassed⟩

/-- `fillMixLeadingJetHadronHistograms` (source lines 891-1016), as a
function of the pairing sequence produced by the external pair
generator. -/
def fillMixLeadingJetHadron (cfg : Config) (w : ℝ) (pairings : List Pairing) : List Fill :=
  runMixGo cfg w pairings [] ⟨0, 0, 0, 0, 0⟩

/-- The histogram names registered by `init` for the data mixed-event
leading-jet process switch (source lines 274-302). -/
def initNamesMixLeadingJetHadron : List HistName :=
  [.h_mixdijet_pair_counts_cut, .h_mixdijet_dphi, .h_mixleadjet_corrpt,
   .h_mixsubleadjet_corrpt, .h_mixleadjet_eta, .h_mixsubleadjet_eta,
   .h2_mixdijet_detanoflip_dphi, .h2_mixdijet_deta_dphi, .h2_mixdijet_Asymmetry,
   .h3_mixdijet_deta_pt, .h_mixjeth_detatot, .h_mixjeth_deta, .h_mixjeth_dphi,
   .h2_mixjeth_detatot_dphi, .h2_mixjeth_deta_dphi,
   .h2_mixjeth_physicalcutsHup_deta_dphi, .h2_mixjeth_physicalcutsHdw_deta_dphi,
   .thn_mixljeth_correlations, .h_mix_event_stats]

/-! ### MCP mixed-event process entry points (source lines 1757-1806 and
1859-1905) -/

/-- The event-selection scan shared by the MCP mixed-event entry points
(source lines 1773-1799 and 1875-1899): `hasSel8Coll`,
`centralityIsGood` and `occupancyIsGood`, computed over the first
associated reco collision when `acceptSplitCollisions` is 0 or 2,
otherwise over all of them. -/
def mcpMixSelGates (cfg : Config) (collisions : List Collision) : Prop :=
  let scanned :=
    if cfg.acceptSplitCollisions = 2 ∨ cfg.acceptSplitCollisions = 0 then collisions.take 1
    else collisions
  (∃ c ∈ scanned, selectCollision c) ∧
  (∃ c ∈ scanned,
    cfg.centralityMin < getCentrality cfg c ∧ getCentrality cfg c < cfg.centralityMax) ∧
  (∃ c ∈ scanned,
    cfg.trackOccupancyInTimeRangeMin < c.trackOccupancyInTimeRange ∧
      c.trackOccupancyInTimeRange < cfg.trackOccupancyInTimeRangeMax)

instance (cfg : Config) (collisions : List Collision) :
    Decidable (mcpMixSelGates cfg collisions) := by
  unfold mcpMixSelGates; infer_instance

/-- `processMixLeadingJetHadronMCP` (source lines 1757-1806): the gating
on the associated reco collisions, after which the call to
`fillMCPMixLeadingJetHadronHistograms` (source line 1804) is commented
out, so the function emits nothing on every path. -/
def processMixLeadingJetHadronMCP (cfg : Config) (_mccollisions : List McCollision)
    (collisions : List Collision) (_jets : List Jet) (_particles : List Track) : List Fill :=
  if collisions.length < 1 then []
  else if cfg.acceptSplitCollisions = 0 ∧ 1 < collisions.length then []
  else if ¬mcpMixSelGates cfg collisions then []
  else []

/-- `processMixJetHadronMCP` (source lines 1859-1905): same gating; the
call to `fillMCPMixJetHadronHistograms` (source line 1903) is commented
out, so the function emits nothing on every path. -/
def processMixJetHadronMCP (cfg : Config) (_mccollisions : List McCollision)
    (collisions : List Collision) (_jets : List Jet) (_particles : List Track) : List Fill :=
  if collisions.length < 1 then []
  else if cfg.acceptSplitCollisions = 0 ∧ 1 < collisions.length then []
  else if ¬mcpMixSelGates cfg collisions then []
  else []

/-! ### Concrete fixtures used by counterexamples and witnesses -/

/-- A fixture configuration: all values are the source defaults except
that the eta windows are widened to `[-1, 1]` for arithmetic convenience;
in particular `jetAreaFractionMin = -99`, `leadingConstituentPtMin = -99`
and `leadingConstituentPtMax = 9999` disable the optional jet cuts, as by
default in the source. -/
def cfgEx : Config where
  vertexZCut := 10
  centralityMin := 0
  centralityMax := 100
  leadingjetptMin := 20
  subleadingjetptMin := 10
  trackEtaMin := -1
  trackEtaMax := 1
  jetEtaMin := -1
  jetEtaMax := 1
  jetAreaFractionMin := -99
  leadingConstituentPtMin := -99
  leadingConstituentPtMax := 9999
  trackOccupancyInTimeRangeMin := -999999
  trackOccupancyInTimeRangeMax := 999999
  checkLeadConstituentPtForMcpJets := false
  cfgCentEstimator := 0
  acceptSplitCollisions := 0

/-- A jet whose corrected pT at `rho = 3` is `1 - 1·3 = -2`, i.e. below
the `-1.0` sentinel while the jet passes acceptance. -/
def jN1 : Jet := ⟨1, 0, 0, 1, 40, []⟩

/-- A jet whose corrected pT at `rho = 3` is `1/2 - 1·3 = -5/2`. -/
def jN2 : Jet := ⟨1 / 2, 0, 0, 1, 40, []⟩

/-- A collision passing every good-collision cut of `cfgEx`. -/
def collGood : Collision := ⟨0, 50, 50, 50, 0, 0, true⟩

/-- A collision failing the external event-selection oracle. -/
def collBad : Collision := ⟨0, 50, 50, 50, 0, 0, false⟩

/-- Leading-jet fixture: corrected pT `50` at `rho = 0`, `eta = -1/2`,
`phi = π` (so that the raw dijet Δφ is `π` and `flip = -1`). -/
def jLeadM : Jet := ⟨50, -(1 / 2), π, 2 / 5, 40, []⟩

/-- Subleading-jet fixture: corrected pT `30` at `rho = 0`, `eta = 1/2`,
`phi = 0`. -/
def jSubM : Jet := ⟨30, 1 / 2, 0, 2 / 5, 40, []⟩

/-- A leading-jet fixture with `phi = -7π/4`: the raw dijet Δφ against
`jSubM` passes the first back-to-back gate but its wrapped value `π/4`
fails the second gate. -/
def jG1 : Jet := ⟨50, -(1 / 2), -(7 * π / 4), 2 / 5, 40, []⟩

/-- A selected track at `pt = 5`, `eta = 1/4`, `phi = 0`. -/
def trkEx : Track := ⟨5, 1 / 4, 0, true⟩

/-- A pairing that survives every gate and emits one per-hadron tuple. -/
def pGood : Pairing := ⟨collGood, [jLeadM, jSubM], collGood, [trkEx], 3⟩

/-- A pairing whose current collision fails the good-collision check. -/
def pBad : Pairing := ⟨collBad, [jLeadM, jSubM], collGood, [trkEx], 3⟩

/-- An MC collision fixture (vertex at origin, `rho = 0`, unit weight). -/
def mcCollEx : McCollision := ⟨0, 0, 1⟩

end

/-! ### MixingCache and PairGenerator (modelled from the spec) -/

/-- Modelled from the spec: an event as seen by the mixing machinery — an
identity and the bin the `EventBinner` assigned to it.  The binning
policy, the bounded per-bin cache and the `Pair` generator live in the O2
framework (`Framework/ASoAHelpers.h`, `Framework/BinningPolicy.h`),
outside the provided sources, so they are modelled from spec §4.2-§4.3
and §5. -/
structure MixEvent where
  id : ℕ
  bin : ℕ
  deriving DecidableEq

/-- Modelled from the spec: `MixingCache.put` appends the event to its
bin's buffer, keeping only the `numberEventsMixed` most recent entries
(FIFO eviction); newest first. -/
def cachePut (numberEventsMixed : ℕ) (buf : List MixEvent) (e : MixEvent) : List MixEvent :=
  List.take numberEventsMixed (e :: buf)

/-- Modelled from the spec: `pairsFor(event, bin)` pairs the event with
every entry buffered in its bin. -/
def pairsFor (e : MixEvent) (bufs : ℕ → List MixEvent) : List (MixEvent × MixEvent) :=
  (bufs e.bin).map fun c => (e, c)

/-- Modelled from the spec: inserting an event updates only its own bin's
buffer. -/
def mixCacheStep (n : ℕ) (bufs : ℕ → List MixEvent) (e : MixEvent) : ℕ → List MixEvent :=
  fun b => if b = e.bin then cachePut n (bufs b) e else bufs b

/-- Modelled from the spec: process an event stream in order; each event
first draws its mixed pairs from the cache and only then is inserted
(spec §5: the caller inserts the current event into the cache only after
generating this event's mixed pairs). -/
def runMixingPairs (n : ℕ) : List MixEvent → (ℕ → List MixEvent) → List (MixEvent × MixEvent)
  | [], _ => []
  | e :: rest, bufs => pairsFor e bufs ++ runMixingPairs n rest (mixCacheStep n bufs e)

/-- All mixed pairs generated over a stream, starting from the empty
cache. -/
def allMixPairs (n : ℕ) (stream : List MixEvent) : List (MixEvent × MixEvent) :=
  runMixingPairs n stream fun _ => []

/-! ## Theorems -/

/-! ## C7: the Δφ wrap is idempotent, range-correct and 2π-periodic -/

theorem constrainAngle_eq_add_fract (x m : ℝ) :
    constrainAngle x m = m + 2 * π * Int.fract ((x - m) / (2 * π)) := by
  have h2π : (2 * π) ≠ 0 := by positivity
  rw [constrainAngle, Int.fract]
  have : 2 * π * ((x - m) / (2 * π)) = x - m := by field_simp
  rw [mul_sub, this]
  ring

theorem constrainAngle_mem_Ico (x m : ℝ) :
    constrainAngle x m ∈ Set.Ico m (m + 2 * π) := by
  rw [constrainAngle_eq_add_fract]
  constructor
  · have h := Int.fract_nonneg ((x - m) / (2 * π))
    nlinarith [Real.pi_pos]
  · have h := Int.fract_lt_one ((x - m) / (2 * π))
    nlinarith [Real.pi_pos]

theorem constrainAngle_of_mem_Ico {x m : ℝ} (h : x ∈ Set.Ico m (m + 2 * π)) :
    constrainAngle x m = x := by
  have h2π : (0 : ℝ) < 2 * π := by positivity
  have hfloor : Int.floor ((x - m) / (2 * π)) = 0 := by
    rw [Int.floor_eq_zero_iff]
    constructor
    · apply div_nonneg (by linarith [h.1]) (le_of_lt h2π)
    · rw [div_lt_one h2π]
      linarith [h.2]
  rw [constrainAngle, hfloor]
  simp

theorem constrainAngle_idem (x m : ℝ) :
    constrainAngle (constrainAngle x m) m = constrainAngle x m :=
  constrainAngle_of_mem_Ico (constrainAngle_mem_Ico x m)

theorem constrainAngle_sub_self (x m : ℝ) :
    ∃ k : ℤ, constrainAngle x m - x = 2 * π * (k : ℝ) := by
  refine ⟨-Int.floor ((x - m) / (2 * π)), ?_⟩
  rw [constrainAngle]
  push_cast
  ring

/-- C7: The Δφ wrapping operation (`constrainAngle` with offset `-π/2`) is
idempotent and range-correct: wrapping an already-wrapped value returns it
unchanged, the wrapped value always lies in `[-π/2, 3π/2)`, and `wrap x`
differs from `x` by an integer multiple of `2π`. -/
theorem wrapDeltaPhi_idempotent_range_period (x : ℝ) :
    wrapDeltaPhi (wrapDeltaPhi x) = wrapDeltaPhi x ∧
      wrapDeltaPhi x ∈ Set.Ico (-(π / 2)) (3 * π / 2) ∧
      ∃ k : ℤ, wrapDeltaPhi x - x = 2 * π * (k : ℝ) := by
  refine ⟨constrainAngle_idem x _, ?_, constrainAngle_sub_self x _⟩
  have h := constrainAngle_mem_Ico x (-(π / 2))
  have : -(π / 2) + 2 * π = 3 * π / 2 := by ring
  rw [wrapDeltaPhi]
  exact ⟨h.1, by rw [← this]; exact h.2⟩

/-! ## C8: the sign flip canonicalizes the jet eta ordering -/

/-- C8: For all real `eta1 ≠ eta2`, the sign flip (`+1` if `eta1 > eta2`,
else `-1`) satisfies `flip·eta1 ≥ flip·eta2`, so the flipped dijet
difference `deltaEtaJets = flip·eta1 − flip·eta2` is nonnegative. -/
theorem signFlip_canonicalizes (eta1 eta2 : ℝ) (h : eta1 ≠ eta2) :
    signFlip eta1 eta2 * eta1 ≥ signFlip eta1 eta2 * eta2 ∧
      0 ≤ signFlip eta1 eta2 * eta1 - signFlip eta1 eta2 * eta2 := by
  rw [signFlip]
  rcases lt_or_gt_of_ne h with hlt | hgt
  · rw [if_neg (by linarith)]
    constructor <;> nlinarith
  · rw [if_pos hgt]
    constructor <;> nlinarith

theorem signFlip_canonicalizes_witness :
    (1 : ℝ) ≠ 0 ∧
      (signFlip 1 0 * 1 ≥ signFlip 1 0 * 0 ∧ 0 ≤ signFlip 1 0 * 1 - signFlip 1 0 * 0) :=
  ⟨by norm_num, signFlip_canonicalizes 1 0 (by norm_num)⟩

/-! ## C1: streaming top-2 selection versus sort-then-take-two -/

theorem insertDescBy_perm (key : Jet → ℝ) (j : Jet) (l : List Jet) :
    (insertDescBy key j l).Perm (j :: l) := by
  induction l with
  | nil => rfl
  | cons a l ih =>
    rw [insertDescBy]
    by_cases h : key j > key a
    · rw [if_pos h]
    · rw [if_neg h]
      exact (ih.cons a).trans (List.Perm.swap j a l)

theorem insertDescBy_pairwise (key : Jet → ℝ) (j : Jet) (l : List Jet)
    (hl : l.Pairwise (fun a b => key b ≤ key a)) :
    (insertDescBy key j l).Pairwise (fun a b => key b ≤ key a) := by
  induction l with
  | nil => simp [insertDescBy]
  | cons a l ih =>
    rw [List.pairwise_cons] at hl
    obtain ⟨ha, hl⟩ := hl
    rw [insertDescBy]
    by_cases h : key j > key a
    · rw [if_pos h]
      refine List.Pairwise.cons ?_ (List.Pairwise.cons ha hl)
      intro b hb
      rcases List.mem_cons.mp hb with rfl | hb
      · exact le_of_lt h
      · exact le_trans (ha b hb) (le_of_lt h)
    · rw [if_neg h]
      refine List.Pairwise.cons ?_ (ih hl)
      intro b hb
      rcases List.mem_cons.mp ((insertDescBy_perm key j l).mem_iff.mp hb) with rfl | hb
      · exact not_lt.mp h
      · exact ha b hb

theorem sortFold_perm (key : Jet → ℝ) (l : List Jet) : ∀ sl : List Jet,
    (List.foldl (fun s j => insertDescBy key j s) sl l).Perm (sl ++ l) := by
  induction l with
  | nil => intro sl; simp
  | cons j l ih =>
    intro sl
    rw [List.foldl_cons]
    exact (ih _).trans (((insertDescBy_perm key j sl).append_right l).trans
      List.perm_middle.symm)

theorem sortFold_pairwise (key : Jet → ℝ) (l : List Jet) : ∀ sl : List Jet,
    sl.Pairwise (fun a b => key b ≤ key a) →
    (List.foldl (fun s j => insertDescBy key j s) sl l).Pairwise
      (fun a b => key b ≤ key a) := by
  induction l with
  | nil => intro sl hs; simpa using hs
  | cons j l ih =>
    intro sl hs
    rw [List.foldl_cons]
    exact ih _ (insertDescBy_pairwise key j sl hs)

/-- The specification-side sort really is a sort: its output is a
permutation of the input. -/
theorem sortDescBy_perm (key : Jet → ℝ) (l : List Jet) : (sortDescBy key l).Perm l := by
  simpa using sortFold_perm key l []

/-- The specification-side sort really is a sort: its output is ordered by
descending key. -/
theorem sortDescBy_pairwise (key : Jet → ℝ) (l : List Jet) :
    (sortDescBy key l).Pairwise (fun a b => key b ≤ key a) :=
  sortFold_pairwise key l [] (List.Pairwise.nil)

theorem top2Step_skip (cfg : Config) (rho : ℝ) (s : Top2State) (j : Jet)
    (hgood : s.ptSubleadingCorr ≤ s.ptLeadingCorr ∧ -1 ≤ s.ptSubleadingCorr)
    (hskip : ¬(jetAccepted cfg j ∧ ptCorrOf rho j > -1)) :
    top2Step cfg rho s j = s := by
  rw [top2Step]
  by_cases hacc : jetAccepted cfg j
  · have hle : ptCorrOf rho j ≤ -1 := by
      by_contra hgt
      exact hskip ⟨hacc, not_le.mp hgt⟩
    rw [if_pos hacc, top2Update, if_neg (by linarith [hgood.1, hgood.2]),
      if_neg (by linarith [hgood.2])]
  · rw [if_neg hacc]

theorem top2Step_keep (cfg : Config) (rho : ℝ) (sl : List Jet) (j : Jet)
    (hacc : jetAccepted cfg j) (hj : ptCorrOf rho j > -1) :
    top2Step cfg rho (top2OfList rho sl) j
      = top2OfList rho (insertDescBy (ptCorrOf rho) j sl) := by
  rw [top2Step, if_pos hacc]
  match sl with
  | [] =>
    rw [top2OfList, top2Update]
    simp only [insertDescBy]
    rw [if_pos hj, top2OfList]
  | [a] =>
    rw [top2OfList, top2Update]
    simp only [insertDescBy]
    by_cases h : ptCorrOf rho j > ptCorrOf rho a
    · rw [if_pos h, if_pos h, top2OfList]
    · rw [if_neg h, if_neg h, if_pos hj, top2OfList]
  | a :: b :: t =>
    rw [top2OfList, top2Update]
    simp only [insertDescBy]
    by_cases h1 : ptCorrOf rho j > ptCorrOf rho a
    · rw [if_pos h1, if_pos h1, top2OfList]
    · rw [if_neg h1, if_neg h1]
      by_cases h2 : ptCorrOf rho j > ptCorrOf rho b
      · rw [if_pos h2, if_pos h2, top2OfList]
      · rw [if_neg h2, if_neg h2, top2OfList]

theorem top2OfList_good (rho : ℝ) (sl : List Jet)
    (hs : sl.Pairwise (fun a b => ptCorrOf rho b ≤ ptCorrOf rho a))
    (hgt : ∀ x ∈ sl, ptCorrOf rho x > -1) :
    (top2OfList rho sl).ptSubleadingCorr ≤ (top2OfList rho sl).ptLeadingCorr ∧
      -1 ≤ (top2OfList rho sl).ptSubleadingCorr := by
  match sl with
  | [] => exact ⟨le_refl _, le_refl _⟩
  | [a] =>
    refine ⟨?_, le_refl _⟩
    have := hgt a (by simp)
    rw [top2OfList]
    dsimp only
    linarith
  | a :: b :: t =>
    rw [top2OfList]
    refine ⟨?_, ?_⟩
    · exact (List.pairwise_cons.mp hs).1 b (by simp)
    · have := hgt b (by simp)
      dsimp only
      linarith

theorem top2_foldl_bridge (cfg : Config) (rho : ℝ) (l : List Jet) : ∀ sl : List Jet,
    sl.Pairwise (fun a b => ptCorrOf rho b ≤ ptCorrOf rho a) →
    (∀ x ∈ sl, ptCorrOf rho x > -1) →
    List.foldl (top2Step cfg rho) (top2OfList rho sl) l
      = top2OfList rho (List.foldl (fun s j => insertDescBy (ptCorrOf rho) j s) sl
          (l.filter (fun j => decide (jetAccepted cfg j ∧ ptCorrOf rho j > -1)))) := by
  induction l with
  | nil => intro sl _ _; simp
  | cons j l ih =>
    intro sl hs hgt
    by_cases hj : jetAccepted cfg j ∧ ptCorrOf rho j > -1
    · rw [List.foldl_cons, top2Step_keep cfg rho sl j hj.1 hj.2]
      simp only [List.filter_cons, decide_eq_true_eq]
      rw [if_pos hj, List.foldl_cons]
      refine ih _ (insertDescBy_pairwise _ _ _ hs) ?_
      intro x hx
      rcases List.mem_cons.mp ((insertDescBy_perm _ j sl).mem_iff.mp hx) with rfl | hx
      · exact hj.2
      · exact hgt x hx
    · rw [List.foldl_cons, top2Step_skip cfg rho _ j (top2OfList_good rho sl hs hgt) hj]
      simp only [List.filter_cons, decide_eq_true_eq]
      rw [if_neg hj]
      exact ih sl hs hgt

/-- C1 (amended): the single-pass streaming selection equals the
sort-then-take-two computed over the jets that pass acceptance AND whose
corrected pT beats the initial `-1.0` sentinel; it returns an incomplete
pair exactly when fewer than two such jets exist.  (The claim's stronger
version — agreement over all accepted jets including those with corrected
pT `≤ -1.0` — is refuted by `leadingJetSelector_sentinel_drops_pair`.) -/
theorem leadingJetSelector_eq_sortTake2 (cfg : Config) (rho : ℝ) (jets : List Jet) :
    leadingJetSelector cfg rho jets
      = top2OfList rho (sortDescBy (ptCorrOf rho) (selectableJets cfg rho jets)) ∧
    ((leadingJetSelector cfg rho jets).subleadingJet = none ↔
      (selectableJets cfg rho jets).length < 2) ∧
    ((leadingJetSelector cfg rho jets).leadingJet = none ↔
      (selectableJets cfg rho jets).length = 0) := by
  have h1 : leadingJetSelector cfg rho jets
      = top2OfList rho (sortDescBy (ptCorrOf rho) (selectableJets cfg rho jets)) := by
    rw [leadingJetSelector, sortDescBy, selectableJets]
    exact top2_foldl_bridge cfg rho jets [] List.Pairwise.nil (by simp)
  have hlen : (sortDescBy (ptCorrOf rho) (selectableJets cfg rho jets)).length
      = (selectableJets cfg rho jets).length :=
    (sortDescBy_perm _ _).length_eq
  refine ⟨h1, ?_, ?_⟩ <;> rw [h1, ← hlen] <;>
    rcases sortDescBy (ptCorrOf rho) (selectableJets cfg rho jets) with - | ⟨a, - | ⟨b, t⟩⟩ <;>
    simp [top2OfList]

/-- C1 counterexample: at `rho = 3`, the two jets `jN1`, `jN2` both pass
acceptance (so at least two jets pass), yet both their corrected pT values
are `≤ -1.0` and the streaming selection returns no pair at all —
refuting "returns a pair whenever at least two jets pass acceptance
(including when their corrected pT values are `≤ -1.0`)". -/
theorem leadingJetSelector_sentinel_drops_pair :
    (leadingJetSelector cfgEx 3 [jN1, jN2]).leadingJet = none ∧
      (leadingJetSelector cfgEx 3 [jN1, jN2]).subleadingJet = none ∧
      2 ≤ (acceptedJets cfgEx [jN1, jN2]).length := by
  have hacc1 : jetAccepted cfgEx jN1 := by
    constructor
    · rw [isInEtaAcceptance, if_neg (by norm_num [cfgEx])]
      norm_num [cfgEx, jN1]
    · rw [isAcceptedJet, if_neg (by norm_num [cfgEx]), if_neg (by norm_num [cfgEx])]
      exact ⟨trivial, trivial⟩
  have hacc2 : jetAccepted cfgEx jN2 := by
    constructor
    · rw [isInEtaAcceptance, if_neg (by norm_num [cfgEx])]
      norm_num [cfgEx, jN2]
    · rw [isAcceptedJet, if_neg (by norm_num [cfgEx]), if_neg (by norm_num [cfgEx])]
      exact ⟨trivial, trivial⟩
  have hstep1 : top2Step cfgEx 3 top2Init jN1 = top2Init := by
    refine top2Step_skip cfgEx 3 top2Init jN1 ⟨le_refl _, le_refl _⟩ ?_
    rintro ⟨-, h⟩
    norm_num [ptCorrOf, jN1] at h
  have hstep2 : top2Step cfgEx 3 top2Init jN2 = top2Init := by
    refine top2Step_skip cfgEx 3 top2Init jN2 ⟨le_refl _, le_refl _⟩ ?_
    rintro ⟨-, h⟩
    norm_num [ptCorrOf, jN2] at h
  have hsel : leadingJetSelector cfgEx 3 [jN1, jN2] = top2Init := by
    rw [leadingJetSelector, List.foldl_cons, hstep1, List.foldl_cons, hstep2, List.foldl_nil]
  refine ⟨by rw [hsel]; rfl, by rw [hsel]; rfl, ?_⟩
  rw [acceptedJets]
  simp only [List.filter_cons, decide_eq_true_eq]
  rw [if_pos hacc1, if_pos hacc2]
  simp

/-! ## Structure of the leading-pair emission stages -/

theorem seHadronTuples_append (a b : List Fill) :
    seHadronTuples (a ++ b) = seHadronTuples a ++ seHadronTuples b :=
  List.filter_append a b

theorem mixHadronTuples_append (a b : List Fill) :
    mixHadronTuples (a ++ b) = mixHadronTuples a ++ mixHadronTuples b :=
  List.filter_append a b

theorem leadingPairFillsSE_gate1 (cfg : Config) (lead sub : Jet) (ptL ptS : ℝ)
    (tracks : List Track) (w : ℝ) (h : |lead.phi - sub.phi| < π / 2) :
    leadingPairFillsSE cfg lead sub ptL ptS tracks w = [] := by
  rw [leadingPairFillsSE, if_pos h]

theorem leadingPairFillsSE_gate2 (cfg : Config) (lead sub : Jet) (ptL ptS : ℝ)
    (tracks : List Track) (w : ℝ) (h1 : ¬|lead.phi - sub.phi| < π / 2)
    (h2 : |constrainAngle (lead.phi - sub.phi) 0| < π / 2) :
    leadingPairFillsSE cfg lead sub ptL ptS tracks w
      = [⟨.h_dijet_dphi, [lead.phi - sub.phi, w]⟩] := by
  rw [leadingPairFillsSE, if_neg h1, if_pos h2]

theorem leadingPairFillsSE_pass (cfg : Config) (lead sub : Jet) (ptL ptS : ℝ)
    (tracks : List Track) (w : ℝ) (h1 : ¬|lead.phi - sub.phi| < π / 2)
    (h2 : ¬|constrainAngle (lead.phi - sub.phi) 0| < π / 2) :
    leadingPairFillsSE cfg lead sub ptL ptS tracks w
      = sePairSummaryFills lead sub ptL ptS w ++ seGatedFills cfg lead sub ptL ptS tracks w := by
  rw [leadingPairFillsSE, if_neg h1, if_neg h2]

theorem seHadronTuples_trackFills (ptL ptS flip e1 e2 dE lp w : ℝ) (t : Track) :
    seHadronTuples (seTrackFills ptL ptS flip e1 e2 dE lp w t)
      = if selectTrack t then
          [⟨.thn_ljeth_correlations,
            [ptL, ptS, t.pt, t.eta - e1, dE, flip * (t.eta - e1),
              constrainAngle (t.phi - lp) (-(π / 2)), w]⟩]
        else [] := by
  rw [seTrackFills]
  by_cases hsel : selectTrack t
  · rw [if_neg (not_not_intro hsel), if_pos hsel]
    simp [seHadronTuples, List.filter_append, isThnLjethFill,
      apply_ite (List.filter isThnLjethFill)]
  · rw [if_pos hsel, if_neg hsel]
    rfl

theorem seHadronTuples_trackJoin (ptL ptS flip e1 e2 dE lp w : ℝ) (tracks : List Track) :
    seHadronTuples ((tracks.map (seTrackFills ptL ptS flip e1 e2 dE lp w)).flatten)
      = (tracks.filter fun t => decide (selectTrack t)).map fun t =>
          (⟨.thn_ljeth_correlations,
            [ptL, ptS, t.pt, t.eta - e1, dE, flip * (t.eta - e1),
              constrainAngle (t.phi - lp) (-(π / 2)), w]⟩ : Fill) := by
  induction tracks with
  | nil => rfl
  | cons t ts ih =>
    rw [List.map_cons, List.flatten_cons, seHadronTuples_append,
      seHadronTuples_trackFills, ih, List.filter_cons]
    by_cases hsel : selectTrack t
    · rw [if_pos hsel, if_pos (decide_eq_true hsel), List.map_cons, List.singleton_append]
    · rw [if_neg hsel, if_neg (by simpa using hsel), List.nil_append]

theorem seHadronTuples_gated (cfg : Config) (lead sub : Jet) (ptL ptS : ℝ)
    (tracks : List Track) (w : ℝ) :
    seHadronTuples (seGatedFills cfg lead sub ptL ptS tracks w)
      = if ptL > cfg.leadingjetptMin ∧ ptS > cfg.subleadingjetptMin then
          (tracks.filter fun t => decide (selectTrack t)).map (seThnFill lead sub ptL ptS w)
        else [] := by
  rw [seGatedFills]
  by_cases hthr : ptL > cfg.leadingjetptMin ∧ ptS > cfg.subleadingjetptMin
  · rw [if_pos hthr, if_pos hthr, seHadronTuples_append, seHadronTuples_trackJoin]
    have h9 : seHadronTuples
        [⟨.h_dijet_pair_counts_cut, [2]⟩,
         ⟨.h_leadjet_eta, [lead.eta, w]⟩,
         ⟨.h_subleadjet_eta, [sub.eta, w]⟩,
         ⟨.h_leadjet_phi, [lead.phi, w]⟩,
         ⟨.h_subleadjet_phi, [sub.phi, w]⟩,
         ⟨.h2_dijet_detanoflip_dphi, [lead.eta - sub.eta, constrainAngle (lead.phi - sub.phi) 0, w]⟩,
         ⟨.h2_dijet_deta_dphi,
          [signFlip lead.eta sub.eta * lead.eta - signFlip lead.eta sub.eta * sub.eta,
            constrainAngle (lead.phi - sub.phi) 0, w]⟩,
         ⟨.h2_dijet_Asymmetry, [ptS, ptS / ptL, w]⟩,
         ⟨.h3_dijet_deta_pt,
          [signFlip lead.eta sub.eta * lead.eta - signFlip lead.eta sub.eta * sub.eta,
            ptL, ptS, w]⟩] = [] := by
      simp [seHadronTuples, isThnLjethFill]
    rw [h9, List.nil_append]
    simp [seThnFill]
  · rw [if_neg hthr, if_neg hthr]
    rfl

/-- C5: in both leading-pair correlation paths the back-to-back gate is
applied twice in sequence.  If the raw Δφ fails `|Δφ| ≥ π/2` the pairing
terminates with no emission (in the mixed path, aborting the invocation);
if the wrapped Δφ fails the repeated check the pairing terminates right
after the single `dijet_dphi` fill (again aborting in the mixed path);
and per-hadron tuples can only be emitted when both checks pass. -/
theorem leadingPair_double_backToBack_gate (cfg : Config) (lead sub : Jet)
    (ptL ptS : ℝ) (tracks tracks2 : List Track) (poolBin : ℕ) (w : ℝ) :
    (|lead.phi - sub.phi| < π / 2 →
      leadingPairFillsSE cfg lead sub ptL ptS tracks w = [] ∧
      mixLeadingPairStage cfg lead sub ptL ptS tracks2 poolBin w = ⟨[], true, 0, 0, 0, 0⟩) ∧
    (¬|lead.phi - sub.phi| < π / 2 → |constrainAngle (lead.phi - sub.phi) 0| < π / 2 →
      leadingPairFillsSE cfg lead sub ptL ptS tracks w
          = [⟨.h_dijet_dphi, [lead.phi - sub.phi, w]⟩] ∧
      mixLeadingPairStage cfg lead sub ptL ptS tracks2 poolBin w
          = ⟨[⟨.h_mixdijet_dphi, [lead.phi - sub.phi, w]⟩], true, 0, 0, 0, 0⟩) ∧
    (seHadronTuples (leadingPairFillsSE cfg lead sub ptL ptS tracks w) ≠ [] →
      ¬|lead.phi - sub.phi| < π / 2 ∧ ¬|constrainAngle (lead.phi - sub.phi) 0| < π / 2) ∧
    (mixHadronTuples (mixLeadingPairStage cfg lead sub ptL ptS tracks2 poolBin w).fills ≠ [] →
      ¬|lead.phi - sub.phi| < π / 2 ∧ ¬|constrainAngle (lead.phi - sub.phi) 0| < π / 2) := by
  refine ⟨?_, ?_, ?_, ?_⟩
  · intro h
    exact ⟨leadingPairFillsSE_gate1 cfg lead sub ptL ptS tracks w h,
      by rw [mixLeadingPairStage, if_pos h]⟩
  · intro h1 h2
    exact ⟨leadingPairFillsSE_gate2 cfg lead sub ptL ptS tracks w h1 h2,
      by rw [mixLeadingPairStage, if_neg h1, if_pos h2]⟩
  · intro hne
    by_cases h1 : |lead.phi - sub.phi| < π / 2
    · exact absurd (by rw [leadingPairFillsSE_gate1 cfg lead sub ptL ptS tracks w h1]; rfl) hne
    by_cases h2 : |constrainAngle (lead.phi - sub.phi) 0| < π / 2
    · refine absurd ?_ hne
      rw [leadingPairFillsSE_gate2 cfg lead sub ptL ptS tracks w h1 h2]
      rfl
    exact ⟨h1, h2⟩
  · intro hne
    by_cases h1 : |lead.phi - sub.phi| < π / 2
    · exact absurd (by rw [mixLeadingPairStage, if_pos h1]; rfl) hne
    by_cases h2 : |constrainAngle (lead.phi - sub.phi) 0| < π / 2
    · refine absurd ?_ hne
      rw [mixLeadingPairStage, if_neg h1, if_pos h2]
      rfl
    exact ⟨h1, h2⟩

/-- C6: once a pair survived both back-to-back gates, the per-pair summary
fills are emitted unconditionally, and the per-hadron tuples are emitted
exactly when `ptLeadingCorr > leadingjetptMin` and
`ptSubleadingCorr > subleadingjetptMin` (both strict): with the threshold
conjunction true the tuples are one per selected track, and with it false
the emission list is just the summary with zero per-hadron tuples. -/
theorem leadingPair_summary_and_threshold_gate (cfg : Config) (lead sub : Jet)
    (ptL ptS : ℝ) (tracks : List Track) (w : ℝ)
    (h1 : ¬|lead.phi - sub.phi| < π / 2)
    (h2 : ¬|constrainAngle (lead.phi - sub.phi) 0| < π / 2) :
    (∃ rest, leadingPairFillsSE cfg lead sub ptL ptS tracks w
        = sePairSummaryFills lead sub ptL ptS w ++ rest) ∧
    (¬(ptL > cfg.leadingjetptMin ∧ ptS > cfg.subleadingjetptMin) →
      leadingPairFillsSE cfg lead sub ptL ptS tracks w
        = sePairSummaryFills lead sub ptL ptS w) ∧
    seHadronTuples (leadingPairFillsSE cfg lead sub ptL ptS tracks w)
      = (if ptL > cfg.leadingjetptMin ∧ ptS > cfg.subleadingjetptMin then
          (tracks.filter fun t => decide (selectTrack t)).map (seThnFill lead sub ptL ptS w)
        else []) := by
  refine ⟨⟨seGatedFills cfg lead sub ptL ptS tracks w,
    leadingPairFillsSE_pass cfg lead sub ptL ptS tracks w h1 h2⟩, ?_, ?_⟩
  · intro hthr
    rw [leadingPairFillsSE_pass cfg lead sub ptL ptS tracks w h1 h2, seGatedFills, if_neg hthr,
      List.append_nil]
  · rw [leadingPairFillsSE_pass cfg lead sub ptL ptS tracks w h1 h2, seHadronTuples_append,
      seHadronTuples_gated]
    have hsum : seHadronTuples (sePairSummaryFills lead sub ptL ptS w) = [] := by
      simp [seHadronTuples, sePairSummaryFills, isThnLjethFill]
    rw [hsum, List.nil_append]

/-! ## Concrete angle evaluations for the fixtures -/

theorem constrainAngle_add_two_pi (x m : ℝ) (h : x + 2 * π ∈ Set.Ico m (m + 2 * π)) :
    constrainAngle x m = x + 2 * π := by
  have h2π : (0 : ℝ) < 2 * π := by positivity
  have hfloor : Int.floor ((x - m) / (2 * π)) = -1 := by
    rw [Int.floor_eq_iff]
    push_cast
    constructor
    · rw [le_div_iff₀ h2π]
      linarith [h.1]
    · have hlt : x - m < 0 := by linarith [h.2]
      have := div_neg_of_neg_of_pos hlt h2π
      linarith
  rw [constrainAngle, hfloor]
  push_cast
  ring

theorem constrainAngle_pi_zero : constrainAngle π 0 = π :=
  constrainAngle_of_mem_Ico
    (Set.mem_Ico.mpr ⟨Real.pi_pos.le, by linarith [Real.pi_pos]⟩)

theorem constrainAngle_zero_sub_pi : constrainAngle (0 - π) (-(π / 2)) = π := by
  rw [constrainAngle_add_two_pi (0 - π) (-(π / 2))
    (Set.mem_Ico.mpr ⟨by linarith [Real.pi_pos], by linarith [Real.pi_pos]⟩)]
  ring

theorem constrainAngle_neg_seven_quarter : constrainAngle (-(7 * π / 4)) 0 = π / 4 := by
  rw [constrainAngle_add_two_pi (-(7 * π / 4)) 0
    (Set.mem_Ico.mpr ⟨by linarith [Real.pi_pos], by linarith [Real.pi_pos]⟩)]
  ring

theorem not_abs_pi_lt_half : ¬|π| < π / 2 := by
  rw [abs_of_pos Real.pi_pos]
  intro h
  linarith [Real.pi_pos]

theorem not_abs_neg_seven_lt_half : ¬|(-(7 * π / 4) : ℝ)| < π / 2 := by
  rw [abs_neg, abs_of_pos (by positivity)]
  intro h
  linarith [Real.pi_pos]

theorem abs_quarter_lt_half : |π / 4| < π / 2 := by
  rw [abs_of_pos (by positivity)]
  linarith [Real.pi_pos]

theorem gate1Ex : ¬|jLeadM.phi - jSubM.phi| < π / 2 := by
  rw [show jLeadM.phi - jSubM.phi = π from by simp [jLeadM, jSubM]]
  exact not_abs_pi_lt_half

theorem gate2Ex : ¬|constrainAngle (jLeadM.phi - jSubM.phi) 0| < π / 2 := by
  rw [show jLeadM.phi - jSubM.phi = π from by simp [jLeadM, jSubM], constrainAngle_pi_zero]
  exact not_abs_pi_lt_half

theorem thrEx : (50 : ℝ) > cfgEx.leadingjetptMin ∧ (30 : ℝ) > cfgEx.subleadingjetptMin := by
  norm_num [cfgEx]

theorem seThnFillEx :
    seThnFill jLeadM jSubM 50 30 1 trkEx
      = ⟨.thn_ljeth_correlations, [50, 30, 5, 3 / 4, 1, -(3 / 4), π, 1]⟩ := by
  have hflip : signFlip jLeadM.eta jSubM.eta = -1 := by
    rw [signFlip, if_neg]
    norm_num [jLeadM, jSubM]
  have hw : constrainAngle (trkEx.phi - jLeadM.phi) (-(π / 2)) = π := by
    rw [show trkEx.phi - jLeadM.phi = 0 - π from by simp [trkEx, jLeadM]]
    exact constrainAngle_zero_sub_pi
  rw [seThnFill, hflip, hw]
  norm_num [jLeadM, jSubM, trkEx]

theorem seTuplesEx :
    seHadronTuples (leadingPairFillsSE cfgEx jLeadM jSubM 50 30 [trkEx] 1)
      = [⟨.thn_ljeth_correlations, [50, 30, 5, 3 / 4, 1, -(3 / 4), π, 1]⟩] := by
  rw [leadingPairFillsSE_pass cfgEx jLeadM jSubM 50 30 [trkEx] 1 gate1Ex gate2Ex,
    seHadronTuples_append, seHadronTuples_gated, if_pos thrEx]
  have hsum : seHadronTuples (sePairSummaryFills jLeadM jSubM 50 30 1) = [] := by
    simp [seHadronTuples, sePairSummaryFills, isThnLjethFill]
  have hfil : ([trkEx].filter fun t => decide (selectTrack t)) = [trkEx] := by
    simp [selectTrack, trkEx]
  rw [hsum, List.nil_append, hfil, List.map_cons, List.map_nil, seThnFillEx]

theorem leadingPair_double_backToBack_gate_witness :
    (leadingPairFillsSE cfgEx jSubM jSubM 50 30 [trkEx] 1 = [] ∧
      mixLeadingPairStage cfgEx jSubM jSubM 50 30 [trkEx] 3 1 = ⟨[], true, 0, 0, 0, 0⟩) ∧
    (leadingPairFillsSE cfgEx jG1 jSubM 50 30 [trkEx] 1
        = [⟨.h_dijet_dphi, [jG1.phi - jSubM.phi, 1]⟩] ∧
      mixLeadingPairStage cfgEx jG1 jSubM 50 30 [trkEx] 3 1
        = ⟨[⟨.h_mixdijet_dphi, [jG1.phi - jSubM.phi, 1]⟩], true, 0, 0, 0, 0⟩) ∧
    (¬|jLeadM.phi - jSubM.phi| < π / 2 ∧
      ¬|constrainAngle (jLeadM.phi - jSubM.phi) 0| < π / 2) := by
  have hz : |jSubM.phi - jSubM.phi| < π / 2 := by
    rw [sub_self, abs_zero]
    positivity
  have hg1 : ¬|jG1.phi - jSubM.phi| < π / 2 := by
    rw [show jG1.phi - jSubM.phi = -(7 * π / 4) from by simp [jG1, jSubM]]
    exact not_abs_neg_seven_lt_half
  have hg2 : |constrainAngle (jG1.phi - jSubM.phi) 0| < π / 2 := by
    rw [show jG1.phi - jSubM.phi = -(7 * π / 4) from by simp [jG1, jSubM],
      constrainAngle_neg_seven_quarter]
    exact abs_quarter_lt_half
  have hne : seHadronTuples (leadingPairFillsSE cfgEx jLeadM jSubM 50 30 [trkEx] 1) ≠ [] := by
    rw [seTuplesEx]
    simp
  exact ⟨(leadingPair_double_backToBack_gate cfgEx jSubM jSubM 50 30 [trkEx] [trkEx] 3 1).1 hz,
    (leadingPair_double_backToBack_gate cfgEx jG1 jSubM 50 30 [trkEx] [trkEx] 3 1).2.1 hg1 hg2,
    (leadingPair_double_backToBack_gate cfgEx jLeadM jSubM 50 30 [trkEx] [trkEx] 3 1).2.2.1 hne⟩

/-! ## Mixed-event path: per-track tuples and concrete evaluation -/

theorem mixHadronTuples_trackFills (ptL ptS flip e1 ej1 e2 dE lp : ℝ) (poolBin : ℕ)
    (w : ℝ) (t : Track) :
    mixHadronTuples (mixTrackFills ptL ptS flip e1 ej1 e2 dE lp poolBin w t)
      = if selectTrack t then
          [⟨.thn_mixjethadron,
            [ptL, ptS, t.pt, t.eta - e1, dE, flip * (t.eta - ej1),
              constrainAngle (t.phi - lp) (-(π / 2)), (poolBin : ℝ), w]⟩]
        else [] := by
  rw [mixTrackFills]
  by_cases hsel : selectTrack t
  · rw [if_neg (not_not_intro hsel), if_pos hsel]
    simp [mixHadronTuples, List.filter_append, isThnMixFill,
      apply_ite (List.filter isThnMixFill)]
  · rw [if_pos hsel, if_neg hsel]
    simp [mixHadronTuples, isThnMixFill]

theorem mixHadronTuples_trackJoin (ptL ptS flip e1 ej1 e2 dE lp : ℝ) (poolBin : ℕ)
    (w : ℝ) (tracks2 : List Track) :
    mixHadronTuples
        ((tracks2.map (mixTrackFills ptL ptS flip e1 ej1 e2 dE lp poolBin w)).flatten)
      = (tracks2.filter fun t => decide (selectTrack t)).map fun t =>
          (⟨.thn_mixjethadron,
            [ptL, ptS, t.pt, t.eta - e1, dE, flip * (t.eta - ej1),
              constrainAngle (t.phi - lp) (-(π / 2)), (poolBin : ℝ), w]⟩ : Fill) := by
  induction tracks2 with
  | nil => rfl
  | cons t ts ih =>
    rw [List.map_cons, List.flatten_cons, mixHadronTuples_append,
      mixHadronTuples_trackFills, ih, List.filter_cons]
    by_cases hsel : selectTrack t
    · rw [if_pos hsel, if_pos (decide_eq_true hsel), List.map_cons, List.singleton_append]
    · rw [if_neg hsel, if_neg (by simpa using hsel), List.nil_append]

theorem mixHadronTuples_stage (cfg : Config) (lead sub : Jet) (ptL ptS : ℝ)
    (tracks2 : List Track) (poolBin : ℕ) (w : ℝ)
    (h1 : ¬|lead.phi - sub.phi| < π / 2)
    (h2 : ¬|constrainAngle (lead.phi - sub.phi) 0| < π / 2) :
    mixHadronTuples (mixLeadingPairStage cfg lead sub ptL ptS tracks2 poolBin w).fills
      = if ptL > cfg.leadingjetptMin ∧ ptS > cfg.subleadingjetptMin then
          (tracks2.filter fun t => decide (selectTrack t)).map
            (mixThnFill lead sub ptL ptS poolBin w)
        else [] := by
  rw [mixLeadingPairStage, if_neg h1, if_neg h2]
  by_cases hthr : ptL > cfg.leadingjetptMin ∧ ptS > cfg.subleadingjetptMin
  · rw [if_pos hthr, if_pos hthr]
    simp only [List.append_assoc]
    rw [mixHadronTuples_append, mixHadronTuples_append, mixHadronTuples_trackJoin]
    have hhead : mixHadronTuples
        [⟨.h_mixdijet_dphi, [lead.phi - sub.phi, w]⟩,
         ⟨.h_mix_event_stats, [2]⟩,
         ⟨.h_mixleadjet_corrpt, [ptL, w]⟩,
         ⟨.h_mixsubleadjet_corrpt, [ptS, w]⟩] = [] := by
      simp [mixHadronTuples, isThnMixFill]
    have hmid : mixHadronTuples
        [⟨.h_mix_event_stats, [3]⟩,
         ⟨.h_mixdijet_pair_counts_cut, [2]⟩,
         ⟨.h_mixleadjet_eta, [lead.eta, w]⟩,
         ⟨.h_mixsubleadjet_eta, [sub.eta, w]⟩,
         ⟨.h2_mixdijet_detanoflip_dphi,
          [lead.eta - sub.eta, constrainAngle (lead.phi - sub.phi) 0, w]⟩,
         ⟨.h2_mixdijet_deta_dphi,
          [signFlip lead.eta sub.eta * lead.eta - signFlip lead.eta sub.eta * sub.eta,
            constrainAngle (lead.phi - sub.phi) 0, w]⟩,
         ⟨.h2_mixdijet_Asymmetry, [ptS, ptS / ptL, w]⟩,
         ⟨.h3_mixdijet_deta_pt,
          [signFlip lead.eta sub.eta * lead.eta - signFlip lead.eta sub.eta * sub.eta,
            ptL, ptS, w]⟩] = [] := by
      simp [mixHadronTuples, isThnMixFill]
    rw [hhead, hmid, List.nil_append, List.nil_append]
    simp [mixThnFill]
  · rw [if_neg hthr, if_neg hthr]
    simp [mixHadronTuples, isThnMixFill]

theorem flipEx : signFlip jLeadM.eta jSubM.eta = -1 := by
  rw [signFlip, if_neg]
  norm_num [jLeadM, jSubM]

theorem wrapTrkEx : constrainAngle (trkEx.phi - jLeadM.phi) (-(π / 2)) = π := by
  rw [show trkEx.phi - jLeadM.phi = 0 - π from by simp [trkEx, jLeadM]]
  exact constrainAngle_zero_sub_pi

theorem mixThnFillEx :
    mixThnFill jLeadM jSubM 50 30 3 1 trkEx
      = ⟨.thn_mixjethadron, [50, 30, 5, 3 / 4, 1, 1 / 4, π, 3, 1]⟩ := by
  rw [mixThnFill, flipEx, wrapTrkEx]
  norm_num [jLeadM, jSubM, trkEx]

theorem mixStageTuplesEx :
    mixHadronTuples (mixLeadingPairStage cfgEx jLeadM jSubM 50 30 [trkEx] 3 1).fills
      = [⟨.thn_mixjethadron, [50, 30, 5, 3 / 4, 1, 1 / 4, π, 3, 1]⟩] := by
  rw [mixHadronTuples_stage cfgEx jLeadM jSubM 50 30 [trkEx] 3 1 gate1Ex gate2Ex,
    if_pos thrEx]
  have hfil : ([trkEx].filter fun t => decide (selectTrack t)) = [trkEx] := by
    simp [selectTrack, trkEx]
  rw [hfil, List.map_cons, List.map_nil, mixThnFillEx]

theorem mixStageMetaEx :
    (mixLeadingPairStage cfgEx jLeadM jSubM 50 30 [trkEx] 3 1).aborted = false ∧
    (mixLeadingPairStage cfgEx jLeadM jSubM 50 30 [trkEx] 3 1).dijets = 1 ∧
    (mixLeadingPairStage cfgEx jLeadM jSubM 50 30 [trkEx] 3 1).dijetsCut = 1 ∧
    (mixLeadingPairStage cfgEx jLeadM jSubM 50 30 [trkEx] 3 1).nPairs = 1 ∧
    (mixLeadingPairStage cfgEx jLeadM jSubM 50 30 [trkEx] 3 1).nPassed = 1 := by
  rw [mixLeadingPairStage, if_neg gate1Ex, if_neg gate2Ex, if_pos thrEx]
  refine ⟨rfl, rfl, rfl, rfl, ?_⟩
  simp [selectTrack, trkEx]

theorem goodCollEx : isGoodCollision cfgEx collGood := by
  refine ⟨rfl, ?_, ?_, ?_⟩
  · norm_num [collGood, cfgEx]
  · norm_num [getCentrality, collGood, cfgEx]
  · norm_num [collGood, cfgEx]

theorem badCollEx : ¬isGoodCollision cfgEx collBad := by
  rintro ⟨h, -⟩
  simp [selectCollision, collBad] at h

theorem jetAccepted_cfgEx (j : Jet) (h1 : -1 ≤ j.eta) (h2 : j.eta ≤ 1) :
    jetAccepted cfgEx j := by
  constructor
  · rw [isInEtaAcceptance, if_neg (by norm_num [cfgEx])]
    constructor
    · simp only [cfgEx]
      linarith
    · simp only [cfgEx]
      linarith
  · rw [isAcceptedJet, if_neg (by norm_num [cfgEx]), if_neg (by norm_num [cfgEx])]
    exact ⟨trivial, trivial⟩

theorem selectorEx : leadingJetSelector cfgEx 0 [jLeadM, jSubM]
    = ⟨some jLeadM, some jSubM, 50, 30⟩ := by
  have ha1 : jetAccepted cfgEx jLeadM :=
    jetAccepted_cfgEx jLeadM (by norm_num [jLeadM]) (by norm_num [jLeadM])
  have ha2 : jetAccepted cfgEx jSubM :=
    jetAccepted_cfgEx jSubM (by norm_num [jSubM]) (by norm_num [jSubM])
  rw [leadingJetSelector, List.foldl_cons, top2Step, if_pos ha1, top2Update,
    if_pos (by norm_num [ptCorrOf, jLeadM, top2Init])]
  rw [List.foldl_cons, top2Step, if_pos ha2, top2Update,
    if_neg (by norm_num [ptCorrOf, jLeadM, jSubM]),
    if_pos (by norm_num [ptCorrOf, jSubM, top2Init]), List.foldl_nil]
  norm_num [ptCorrOf, jLeadM, jSubM, top2Init]

theorem stepBadEx : mixPairingStep cfgEx 1 pBad
    = ⟨[⟨.h_mix_event_stats, [1]⟩], true, 0, 0, 0, 0⟩ := by
  simp only [mixPairingStep]
  rw [show pBad.c1 = collBad from rfl, if_pos badCollEx]

theorem stepGoodEx : mixPairingStep cfgEx 1 pGood
    = ⟨⟨.h_mix_event_stats, [1]⟩ ::
        (mixLeadingPairStage cfgEx jLeadM jSubM 50 30 [trkEx] 3 1).fills,
       false, 1, 1, 1, 1⟩ := by
  obtain ⟨hab, hd, hdc, hnp, hps⟩ := mixStageMetaEx
  simp only [mixPairingStep]
  rw [show pGood.c1 = collGood from rfl, show pGood.c2 = collGood from rfl,
    show pGood.jets1 = [jLeadM, jSubM] from rfl, show pGood.tracks2 = [trkEx] from rfl,
    show pGood.poolBin = 3 from rfl,
    if_neg (not_not_intro goodCollEx), if_neg (not_not_intro goodCollEx),
    show collGood.rho = 0 from rfl, selectorEx]
  simp only []
  rw [hab, hd, hdc, hnp, hps, List.singleton_append]

theorem runBadEx : fillMixLeadingJetHadron cfgEx 1 [pBad, pGood]
    = [⟨.h_mix_event_stats, [1]⟩] := by
  rw [fillMixLeadingJetHadron, runMixGo, stepBadEx]
  simp

theorem runGoodTuplesEx :
    mixHadronTuples (fillMixLeadingJetHadron cfgEx 1 [pGood])
      = [⟨.thn_mixjethadron, [50, 30, 5, 3 / 4, 1, 1 / 4, π, 3, 1]⟩] := by
  rw [fillMixLeadingJetHadron, runMixGo, stepGoodEx]
  simp only [List.nil_append]
  rw [if_neg (by simp), runMixGo]
  rw [mixHadronTuples_append]
  have hfin : mixHadronTuples (mixFinalStats ⟨0 + 1, 0 + 1, 0 + 1, 0 + 1, 0 + 1⟩) = [] := by
    simp [mixFinalStats, mixHadronTuples, isThnMixFill]
  rw [hfin, List.append_nil]
  have hcons : mixHadronTuples
      (⟨.h_mix_event_stats, [1]⟩ ::
        (mixLeadingPairStage cfgEx jLeadM jSubM 50 30 [trkEx] 3 1).fills)
      = mixHadronTuples (mixLeadingPairStage cfgEx jLeadM jSubM 50 30 [trkEx] 3 1).fills := by
    rw [mixHadronTuples, List.filter_cons]
    simp [isThnMixFill, mixHadronTuples]
  rw [hcons, mixStageTuplesEx]

/-- C2 refutation: in the mixed-event leading-pair path the emitted
per-hadron Δη is `flip·(hadronEta − flip·etaRaw)` — at the fixture
(`flip = -1`, `etaRaw = -1/2`, `hadronEta = 1/4`) the emitted tuple
carries `deta = 1/4` while `flip·(hadronEta − etaRaw) = -3/4`; the
same-event path does emit `-3/4` as the claim states. -/
theorem mixLeading_deta_uses_flipped_eta :
    mixHadronTuples (mixLeadingPairStage cfgEx jLeadM jSubM 50 30 [trkEx] 3 1).fills
      = [⟨.thn_mixjethadron, [50, 30, 5, 3 / 4, 1, 1 / 4, π, 3, 1]⟩] ∧
    signFlip jLeadM.eta jSubM.eta * (trkEx.eta - jLeadM.eta) = -(3 / 4) ∧
    (1 / 4 : ℝ) ≠ -(3 / 4) ∧
    seHadronTuples (leadingPairFillsSE cfgEx jLeadM jSubM 50 30 [trkEx] 1)
      = [⟨.thn_ljeth_correlations, [50, 30, 5, 3 / 4, 1, -(3 / 4), π, 1]⟩] := by
  refine ⟨mixStageTuplesEx, ?_, by norm_num, seTuplesEx⟩
  rw [flipEx]
  norm_num [trkEx, jLeadM]

/-- C3 refutation: in `fillMixLeadingJetHadronHistograms` the rejection of
one pairing executes `return`, aborting the whole invocation: with the
first pairing failing the good-collision check, the invocation stops after
the first entry fill, emitting no per-hadron tuple at all — although the
second pairing alone produces one. -/
theorem mixLeading_rejection_aborts_invocation :
    fillMixLeadingJetHadron cfgEx 1 [pBad, pGood] = [⟨.h_mix_event_stats, [1]⟩] ∧
    mixHadronTuples (fillMixLeadingJetHadron cfgEx 1 [pBad, pGood]) = [] ∧
    mixHadronTuples (fillMixLeadingJetHadron cfgEx 1 [pGood])
      = [⟨.thn_mixjethadron, [50, 30, 5, 3 / 4, 1, 1 / 4, π, 3, 1]⟩] := by
  refine ⟨runBadEx, ?_, runGoodTuplesEx⟩
  rw [runBadEx]
  simp [mixHadronTuples, isThnMixFill]

/-- C10 refutation: the per-hadron tuple of the data mixed-event
leading-jet path is emitted under the name `thn_mixjethadron` (source line
1001), which `init` never registers for this process switch — `init`
registers `thn_mixljeth_correlations` instead (source lines 293-294). -/
theorem mixLeading_fill_name_not_registered :
    (∃ f ∈ fillMixLeadingJetHadron cfgEx 1 [pGood],
      f.name = HistName.thn_mixjethadron) ∧
    HistName.thn_mixjethadron ∉ initNamesMixLeadingJetHadron := by
  constructor
  · refine ⟨⟨.thn_mixjethadron, [50, 30, 5, 3 / 4, 1, 1 / 4, π, 3, 1]⟩, ?_, rfl⟩
    apply List.mem_of_mem_filter (p := isThnMixFill)
    rw [show List.filter isThnMixFill (fillMixLeadingJetHadron cfgEx 1 [pGood])
        = mixHadronTuples (fillMixLeadingJetHadron cfgEx 1 [pGood]) from rfl,
      runGoodTuplesEx]
    simp
  · decide

/-- C4 refutation: the MCP mixed-event entry points gate the associated
reco collisions but never call their fill routines (the calls at source
lines 1804 and 1903 are commented out): at a fixture input that passes
every gate they emit nothing, while the data mixed-event path at the
analogous input emits a per-hadron tuple. -/
theorem mcpMix_entryPoints_emit_nothing :
    mcpMixSelGates cfgEx [collGood] ∧
    processMixLeadingJetHadronMCP cfgEx [mcCollEx] [collGood] [jLeadM, jSubM] [trkEx] = [] ∧
    processMixJetHadronMCP cfgEx [mcCollEx] [collGood] [jLeadM, jSubM] [trkEx] = [] ∧
    mixHadronTuples (fillMixLeadingJetHadron cfgEx 1 [pGood]) ≠ [] := by
  refine ⟨?_, by simp [processMixLeadingJetHadronMCP],
    by simp [processMixJetHadronMCP], by rw [runGoodTuplesEx]; simp⟩
  rw [mcpMixSelGates]
  rw [if_pos (by norm_num [cfgEx])]
  refine ⟨⟨collGood, by simp, rfl⟩, ⟨collGood, by simp, ?_⟩, ⟨collGood, by simp, ?_⟩⟩
  · norm_num [getCentrality, cfgEx, collGood]
  · norm_num [cfgEx, collGood]

theorem leadingPair_summary_and_threshold_gate_witness :
    (¬|jLeadM.phi - jSubM.phi| < π / 2) ∧
    (¬|constrainAngle (jLeadM.phi - jSubM.phi) 0| < π / 2) ∧
    seHadronTuples (leadingPairFillsSE cfgEx jLeadM jSubM 50 30 [trkEx] 1)
      = [⟨.thn_ljeth_correlations, [50, 30, 5, 3 / 4, 1, -(3 / 4), π, 1]⟩] := by
  refine ⟨gate1Ex, gate2Ex, ?_⟩
  rw [(leadingPair_summary_and_threshold_gate cfgEx jLeadM jSubM 50 30 [trkEx] 1
    gate1Ex gate2Ex).2.2, if_pos thrEx]
  have hfil : ([trkEx].filter fun t => decide (selectTrack t)) = [trkEx] := by
    simp [selectTrack, trkEx]
  rw [hfil, List.map_cons, List.map_nil, seThnFillEx]

/-! ## C9: an event is never mixed with itself -/

theorem runMixingPairs_id_ne (n : ℕ) : ∀ (stream : List MixEvent) (bufs : ℕ → List MixEvent),
    (stream.map MixEvent.id).Nodup →
    (∀ b c, c ∈ bufs b → c.id ∉ stream.map MixEvent.id) →
    ∀ pr ∈ runMixingPairs n stream bufs, pr.1.id ≠ pr.2.id := by
  intro stream
  induction stream with
  | nil =>
    intro bufs _ _ pr hpr
    simp [runMixingPairs] at hpr
  | cons e rest ih =>
    intro bufs hnd hbufs pr hpr
    rw [runMixingPairs] at hpr
    have hnd' : (e.id ∉ rest.map MixEvent.id) ∧ (rest.map MixEvent.id).Nodup := by
      rw [List.map_cons, List.nodup_cons] at hnd
      exact hnd
    rcases List.mem_append.mp hpr with hp | hp
    · rw [pairsFor] at hp
      obtain ⟨c, hc, rfl⟩ := List.mem_map.mp hp
      intro h
      exact hbufs _ c hc (by rw [List.map_cons]; exact List.mem_cons.mpr (Or.inl h.symm))
    · refine ih (mixCacheStep n bufs e) hnd'.2 ?_ pr hp
      intro b c hc
      rw [mixCacheStep] at hc
      by_cases hb : b = e.bin
      · rw [if_pos hb, cachePut] at hc
        rcases List.mem_cons.mp (List.take_subset _ _ hc) with rfl | hc'
        · exact hnd'.1
        · intro hmem
          exact hbufs b c hc' (by rw [List.map_cons]; exact List.mem_cons.mpr (Or.inr hmem))
      · rw [if_neg hb] at hc
        intro hmem
        exact hbufs b c hc (by rw [List.map_cons]; exact List.mem_cons.mpr (Or.inr hmem))

/-- C9: when an event's pairings are generated before its own insertion
into the cache (the modelled processing order), no produced tuple pairs
the event with itself — for any stream of distinct events and any buffer
bound. -/
theorem mixingCache_no_self_pairing (n : ℕ) (stream : List MixEvent)
    (h : (stream.map MixEvent.id).Nodup) :
    ∀ pr ∈ allMixPairs n stream, pr.2 ≠ pr.1 ∧ pr.2.id ≠ pr.1.id := by
  intro pr hpr
  have hne := runMixingPairs_id_ne n stream (fun _ => []) h (by simp) pr hpr
  exact ⟨fun he => hne (by rw [he]), fun he => hne he.symm⟩

theorem mixingCache_no_self_pairing_witness :
    (([⟨0, 0⟩, ⟨1, 0⟩, ⟨2, 1⟩] : List MixEvent).map MixEvent.id).Nodup ∧
      ∀ pr ∈ allMixPairs 5 [⟨0, 0⟩, ⟨1, 0⟩, ⟨2, 1⟩], pr.2 ≠ pr.1 ∧ pr.2.id ≠ pr.1.id :=
  ⟨by decide, mixingCache_no_self_pairing 5 _ (by decide)⟩

end ChargedJetHadronTask
